import Mathlib

/-!
Verification of the py2wdl workflow-graph model and compiler.

Shallow embedding of the repository's source:
* `src/py2wdl/task.py` — value/task model (`WDLValue.add_child`, `Task.__init__`,
  `Task.get_outputs`, `Task.__call__`);
* `src/py2wdl/workflow.py` — the pipeline algebra (`Workflow.connect`,
  `forward`/`branch`/`join`/`scatter`/`gather`, `WorkflowComponent`);
* `src/py2wdl/manager.py` — `WorkflowManager.add_workflow`;
* `src/py2wdl/translator.py` — `Translator.sort_tasks`.

Python specifics are kept: machine state mutated before an exception is raised
survives the exception, `isinstance` respects the class hierarchy
(`File`/`Condition` are subclasses of `String`) while `type(x) is C` is exact,
and the `while` loop of `sort_tasks` is given explicit fuel because the source
has no progress check.
-/

namespace Py2Wdl

/-! ## Value and task model (`src/py2wdl/task.py`) -/

/-- The WDL value classes of `task.py`: `Boolean`, `Int`, `Float` is absent
there, `String`, `File`, `Condition`, `Array[T]`.  `File` and `Condition` are
declared as subclasses of `String`. -/
inductive PyClass where
  | boolean
  | int
  | string
  | file
  | condition
  | array (elem : PyClass)
deriving DecidableEq, Repr

/-- Errors raised by the embedded `task.py` code.  The source raises plain
`TypeError`s; the constructors record which check fired.
`subscriptedGeneric` is the `TypeError` Python's `isinstance` itself raises
when its second argument is a subscripted generic such as `Array[String]`
("Subscripted generics cannot be used with class and instance checks"). -/
inductive PyErr where
  | arityError
  | typeMismatch
  | subscriptedGeneric
  | branchNeedsCondition
deriving DecidableEq, Repr

/-- Python `isinstance(value, cls)` for an instance whose exact class is `c`
against a declared class `t`.  A subscripted generic `Array[T]` as the
second argument makes `isinstance` itself raise `TypeError`, regardless of
the value (`.array e` models the subscripted form, the only one the
repository declares as an input type).  For the ordinary classes the result
is exact match, or the two subclass edges `File <: String` and
`Condition <: String` from `task.py`. -/
def isInstance (c t : PyClass) : Except PyErr Bool :=
  match t with
  | .array _ => .error .subscriptedGeneric
  | _ =>
    .ok (c == t ||
      match c, t with
      | .file, .string => true
      | .condition, .string => true
      | _, _ => false)

/-- A consumer edge recorded by `WDLValue.add_child`: the consuming task's
name and the input-slot index. -/
structure ChildEdge where
  childTask : String
  inputIdx : Nat
deriving DecidableEq, Repr

/-- A `WDLValue` of `task.py`: its exact runtime class and the accumulated
consumer edges (`children`).  The producer fields (`parent_task`,
`output_idx`) are determined by the owning task and slot and are not needed
by the claims over this model. -/
structure WValue where
  cls : PyClass
  children : List ChildEdge := []
deriving DecidableEq, Repr

/-- `WDLValue.add_child(child_task, input_idx)`: append one consumer edge. -/
def WValue.add_child (v : WValue) (childTask : String) (inputIdx : Nat) : WValue :=
  { v with children := v.children ++ [⟨childTask, inputIdx⟩] }

/-- A constructed `Task` of `task.py`: name, declared input classes, declared
output classes, the `branch` constructor flag, the eagerly created output
values and, when assigned, the index of the `condition` output. -/
structure PyTask where
  name : String
  input_types : List PyClass
  output_types : List PyClass
  branch : Bool
  outputs : List WValue
  condition : Option Nat
deriving DecidableEq, Repr

/-- `Task.setting_output_values`: one fresh output value per declared output
class (each owning `parent=this, output_idx=i`; producer fields omitted as
above). -/
def setting_output_values (output_types : List PyClass) : List WValue :=
  output_types.map (fun c => { cls := c })

/-- Index of the first output whose exact class is `Condition`
(`type(output) is Condition` in the source). -/
def firstConditionIdx : List PyClass → Option Nat
  | [] => none
  | c :: cs =>
    if c = .condition then some 0
    else (firstConditionIdx cs).map (· + 1)

/-- `Task.__init__`: creates the outputs, then — only when the `branch` flag
is passed — requires `Condition in output_types` (exact class membership) and
records the first `Condition` output as `self.condition`.  With
`branch=False` the `condition` attribute is never assigned. -/
def taskInit (name : String) (input_types output_types : List PyClass)
    (branch : Bool) : Except PyErr PyTask :=
  let outputs := setting_output_values output_types
  if branch then
    if ¬ output_types.contains .condition then
      .error .branchNeedsCondition
    else
      .ok ⟨name, input_types, output_types, branch, outputs,
        firstConditionIdx output_types⟩
  else
    .ok ⟨name, input_types, output_types, branch, outputs, none⟩

/-- `Task.get_outputs`: with the `branch` flag set, every output whose exact
class is not `Condition`, in declared order; otherwise all outputs. -/
def getOutputs (t : PyTask) : List WValue :=
  if t.branch then t.outputs.filter (fun o => o.cls ≠ .condition) else t.outputs

/-- The zip-loop of `Task.__call__` starting at slot `i`: on a matching
argument the consumer edge is recorded and the loop continues; on the first
failing slot a `TypeError` is raised — either by `isinstance` itself when
the declared type is a subscripted `Array[T]`, or by the explicit `raise`
when the value does not match — keeping the edges already recorded on the
earlier arguments.  Returns the (possibly partially mutated) argument values
together with the raised error, if any. -/
def callLoop (tname : String) : Nat → List WValue → List PyClass →
    List WValue × Option PyErr
  | _, [], _ => ([], none)
  | _, args, [] => (args, none)
  | i, a :: as, ty :: tys =>
    match isInstance a.cls ty with
    | .error e => (a :: as, some e)
    | .ok false => (a :: as, some .typeMismatch)
    | .ok true =>
      let r := callLoop tname (i + 1) as tys
      (a.add_child tname i :: r.1, r.2)

/-- `Task.__call__(*args)`: arity check first (raised before any edge is
recorded), then the per-slot `isinstance` check interleaved with
`add_child`. -/
def taskCall (t : PyTask) (args : List WValue) : List WValue × Option PyErr :=
  if args.length ≠ t.input_types.length then
    (args, some .arityError)
  else
    callLoop t.name 0 args t.input_types

/-- The argument list with one new consumer edge `(tname, slot)` on each of
the first `k` arguments, slots counted from `i`. -/
def addEdges (tname : String) : Nat → Nat → List WValue → List WValue
  | _, _, [] => []
  | _, 0, args => args
  | i, k + 1, a :: as => a.add_child tname i :: addEdges tname (i + 1) k as

/-- Index of the first argument slot at which `Task.__call__` raises,
together with the raised error: a subscripted `Array[T]` declared type makes
`isinstance` raise, a non-matching value triggers the explicit `raise`
(`none` when every pair matches). -/
def firstFailure : List WValue → List PyClass → Option (Nat × PyErr)
  | [], _ => none
  | _, [] => none
  | a :: as, ty :: tys =>
    match isInstance a.cls ty with
    | .error e => some (0, e)
    | .ok false => some (0, .typeMismatch)
    | .ok true => (firstFailure as tys).map (fun p => (p.1 + 1, p.2))

/-! ## Pipeline algebra (`src/py2wdl/workflow.py`) -/

/-- The five named algebra operators of `workflow.py` / `operator.py`. -/
inductive AlgOp where
  | forward
  | branch
  | join
  | scatter
  | gather
deriving DecidableEq, Repr

/-- The operator string that `Workflow.forward` … `Workflow.gather` pass to
`Workflow.connect`. -/
def AlgOp.token : AlgOp → String
  | .forward => "forward"
  | .branch => "branch"
  | .join => "join"
  | .scatter => "scatter"
  | .gather => "gather"

/-- A `Workflow` of `workflow.py`: the flattened operand list (components,
identified by `Nat` ids) and the operator-string list. -/
structure PyWorkflow where
  operands : List Nat
  operators : List String
deriving DecidableEq, Repr

/-- `Workflow.__init__(operand)`. -/
def workflowInit (operand : Nat) : PyWorkflow := ⟨[operand], []⟩

/-- `Workflow.connect(other, operator)`: append the other workflow's operands
and splice the operator string between the two operator lists.  It touches
nothing but `self.operands` and `self.operators`. -/
def PyWorkflow.connect (w other : PyWorkflow) (operator : String) : PyWorkflow :=
  ⟨w.operands ++ other.operands, w.operators ++ [operator] ++ other.operators⟩

/-- A pipeline expression `a OP b OP c …`, possibly nested, as the author
writes it with the infix algebra of `operator.py`. -/
inductive PipeExpr where
  | leaf (component : Nat)
  | comp (l : PipeExpr) (op : AlgOp) (r : PipeExpr)
deriving DecidableEq, Repr

/-- Evaluating a pipeline expression through `workflow.py`:
a leaf is `to_workflow(component)` (that is `Workflow(component)`), and
`l OP r` is `to_workflow(l).OP(to_workflow(r))`, which is
`connect(·, OP.token)`. -/
def buildWorkflow : PipeExpr → PyWorkflow
  | .leaf c => workflowInit c
  | .comp l op r => (buildWorkflow l).connect (buildWorkflow r) op.token

/-- The operand components of a pipeline expression, left to right. -/
def PipeExpr.components : PipeExpr → List Nat
  | .leaf c => [c]
  | .comp l _ r => l.components ++ r.components

/-- The operator tokens of a pipeline expression, in left-to-right
composition order. -/
def PipeExpr.tokens : PipeExpr → List String
  | .leaf _ => []
  | .comp l op r => l.tokens ++ [op.token] ++ r.tokens

/-! ## Graph builder (`src/py2wdl/manager.py`)

`WorkflowManager.add_workflow` walks the operand/operator stream pairwise.
The operand components carry (in the heap) the `scattered` flag of
`WorkflowComponent` together with the data the builder inspects. -/

/-- The state of one workflow component as `add_workflow` sees it:
the `scattered` flag of `WorkflowComponent` (`workflow.py`), whether the
operand is a `Task`, whether its `condition` attribute is assigned, and its
output values.

`get_outputs` is not defined on `workflow.py`'s `WorkflowComponent`; the
`outputs` field is modelled from the spec: «(3) produce the list of output
Values to be consumed by the next stage» (§3, WorkflowComponent). -/
structure MComp where
  isTask : Bool
  hasCondition : Bool
  scattered : Bool
  outputs : List Nat
deriving DecidableEq, Repr

/-- The heap of component states, keyed by component id. -/
def Heap := List (Nat × MComp)
deriving DecidableEq, Repr

/-- `component.is_scattered()` for the component with the given id. -/
def isScattered : Heap → Nat → Bool
  | [], _ => false
  | (k, comp) :: t, c => if k == c then comp.scattered else isScattered t c

/-- `component.use_scatter()`: set the component's `scattered` flag to
`True`.  No operation anywhere assigns `False` to the flag. -/
def useScatter : Heap → Nat → Heap
  | [], _ => []
  | (k, comp) :: t, c =>
    if k == c then (k, { comp with scattered := true }) :: useScatter t c
    else (k, comp) :: useScatter t c

/-- `component.get_outputs()` (spec-modelled, see `MComp.outputs`). -/
def heapOutputs (h : Heap) (c : Nat) : List Nat :=
  ((List.find? (fun p => p.1 == c) h).map (fun p => p.2.outputs)).getD []

/-- `isinstance(base, Task) and base.condition is not None` for the `<`
branch of `add_workflow`. -/
def taskWithCondition (h : Heap) (c : Nat) : Bool :=
  ((List.find? (fun p => p.1 == c) h).map
    (fun p => p.2.isTask && p.2.hasCondition)).getD false

/-- Errors raised by the embedded `add_workflow`. -/
inductive MErr where
  | branchNeedsCondition
  | gatherNeedsScattered
  | unsupportedOperator
  | missingGatherMethod
  | emptyOperands
deriving DecidableEq, Repr

/-- One iteration of the `add_workflow` loop: dispatch on the operator
string.  The recognized tokens are exactly `"|"`, `"<"`, `"<<"` and `">>"`;
anything else raises `ValueError("Unsupported operator")`.

The calls `other.forward(outputs)`, `other.branch(outputs)` and
`other.scatter(outputs)` resolve to the algebra methods of
`WorkflowComponent` (`workflow.py`), which build and discard a `Workflow`
and leave the heap untouched; `other.gather(outputs)` resolves to no method
at all (`WorkflowComponent` defines `gatter`), so the `>>` success path
raises an `AttributeError`, modelled as `missingGatherMethod`.  State mutated
before an exception survives it, so errors carry the heap. -/
def applyOperator (h : Heap) (base other : Nat) (operator : String) :
    Heap × Option MErr :=
  if operator = "|" then
    let h := if isScattered h base then useScatter h other else h
    (h, none)
  else if operator = "<" then
    let h := if isScattered h base then useScatter h other else h
    if ¬ taskWithCondition h base then (h, some .branchNeedsCondition)
    else (h, none)
  else if operator = "<<" then
    (useScatter h other, none)
  else if operator = ">>" then
    if ¬ isScattered h base then (h, some .gatherNeedsScattered)
    else (h, some .missingGatherMethod)
  else
    (h, some .unsupportedOperator)

/-- The `for other, operator in zip(...)` loop of `add_workflow`. -/
def addWorkflowLoop (h : Heap) (base : Nat) :
    List (Nat × String) → Heap × Option MErr
  | [] => (h, none)
  | (other, operator) :: rest =>
    match applyOperator h base other operator with
    | (h', none) => addWorkflowLoop h' other rest
    | (h', some e) => (h', some e)

/-- The manager's compilation-unit state: the set of components ever added
(`self.components`, set semantics kept as first-insertion order). -/
structure Manager where
  components : List Nat
deriving DecidableEq, Repr

/-- `self.components.update(workflow.operands)`. -/
def insertAll (s : List Nat) : List Nat → List Nat
  | [] => s
  | c :: cs => insertAll (if c ∈ s then s else s ++ [c]) cs

/-- `WorkflowManager.add_workflow(workflow)`: first record every operand in
the component set, then walk the operand/operator pairs.  An exception in
the loop leaves the already-updated component set in place. -/
def addWorkflow (m : Manager) (h : Heap) (w : PyWorkflow) :
    Manager × Heap × Option MErr :=
  let m' : Manager := ⟨insertAll m.components w.operands⟩
  match w.operands with
  | [] => (m', h, some .emptyOperands)
  | base :: rest =>
    let (h', e) := addWorkflowLoop h base (rest.zip w.operators)
    (m', h', e)

/-- The operations of the system that can touch a component's `scattered`
flag: `use_scatter` itself, building a pipeline expression through the
algebra of `workflow.py` (which touches no component state), and
`add_workflow`. -/
inductive SysOp where
  | useScatter (c : Nat)
  | algebra (e : PipeExpr)
  | addWorkflow (m : Manager) (w : PyWorkflow)
deriving Repr

/-- Effect of one operation on the heap. -/
def runSysOp (h : Heap) : SysOp → Heap
  | .useScatter c => useScatter h c
  | .algebra _ => h
  | .addWorkflow m w => (addWorkflow m h w).2.1

/-- Effect of an operation sequence on the heap. -/
def runSysOps (h : Heap) : List SysOp → Heap
  | [] => h
  | op :: ops => runSysOps (runSysOp h op) ops

/-! ## Leveling and ordering (`src/py2wdl/translator.py`, `sort_tasks`)

`sort_tasks` reads a task graph whose tasks carry `inputs` (per input slot, a
list of dependency values), `outputs` (per output slot, a list of dependency
values), a `scattered` flag, a `branching` flag and a `cond_idx`, and whose
dependency values carry `parent`, `child`, `is_scattered()` and
`is_wrapped()`.  That task/value class is not under `src/` (the `Task` of
`task.py` has none of these fields); it is modelled from the spec (§3
Value/Task and the attributes §4.6 reads), with the field names the
translator uses. -/

/-- A producer reference of a dependency value: the producing task or a
literal `Values` container (`isinstance(parent, Values)` in the source). -/
inductive SParent where
  | ptask (id : Nat)
  | pvalues (id : Nat)
deriving DecidableEq, Repr

/-- Modelled from the spec: a dependency edge value as `sort_tasks` reads it
— producer reference, consuming task, and the `scattered`/`wrapped` flags. -/
structure SDep where
  parent : SParent
  child : Nat
  scattered : Bool
  wrapped : Bool
deriving DecidableEq, Repr

/-- Modelled from the spec: a task as `sort_tasks` reads it.  `inputs` /
`outputs` hold one dependency list per slot; `condIdx` is the source's
`cond_idx`. -/
structure STask where
  id : Nat
  sname : String
  inputs : List (List SDep)
  outputs : List (List SDep)
  scattered : Bool
  branching : Bool
  condIdx : Nat
deriving DecidableEq, Repr

/-- An element of the `contents` list built by `sort_tasks`: a task call, the
`"scatter"` marker string, or one of the `if` / `else if` / closing-brace
lines inserted for a branch (modelled structurally instead of as rendered
text: level, `if` vs `else if`, the branching task's name and `cond_idx`,
and the branch child's name). -/
inductive SItem where
  | stask (id : Nat)
  | scatterMarker
  | ifLine (lv : Int) (isFirst : Bool) (taskName : String) (condIdx : Nat)
      (childName : String)
  | closeLine (lv : Int)
deriving DecidableEq, Repr

/-- The mutable state of one `sort_tasks` run: `defined_tasks` (set semantics
kept as insertion order), `contents`, and the `lv` attribute assignments on
tasks (newest first). -/
structure SortState where
  defined : List Nat
  contents : List SItem
  levels : List (Nat × Int)
deriving DecidableEq, Repr

/-- Python `list.insert(n, x)`: insert before index `n`, append when `n` is
past the end. -/
def pyInsert (n : Nat) (x : α) (l : List α) : List α :=
  if n ≥ l.length then l ++ [x] else l.take n ++ x :: l.drop n

/-- Python `list(set(xs))`, modelled as keeping the first occurrence of each
element in order. -/
def pyDedup [DecidableEq α] : List α → List α
  | [] => []
  | x :: xs => x :: (pyDedup xs).filter (fun y => y ≠ x)

/-- Python `contents.index(x)` (first index; the source raises `ValueError`
when absent, which no claim's input reaches — modelled as the length). -/
def indexOfItem (l : List SItem) (x : SItem) : Nat :=
  match l.findIdx? (fun y => y == x) with
  | some i => i
  | none => l.length

/-- Insert a task id into `defined_tasks`. -/
def insertDefined (x : Nat) (s : List Nat) : List Nat :=
  if x ∈ s then s else s ++ [x]

/-- Read `task.lv` for task `id` (the source reads the attribute only after
it was assigned; unassigned reads are modelled as `0`). -/
def lookupLv (levels : List (Nat × Int)) (id : Nat) : Int :=
  ((List.find? (fun p => p.1 == id) levels).map (fun p => p.2)).getD 0

/-- Assign `task.lv = v`. -/
def setLv (levels : List (Nat × Int)) (id : Nat) (v : Int) : List (Nat × Int) :=
  (id, v) :: levels

/-- `parent.lv` for a producer reference.  A `Values` container has no `lv`
attribute (the source would raise `AttributeError`); modelled as `0`,
unreached by the claims' inputs. -/
def parentLv (levels : List (Nat × Int)) : SParent → Int
  | .ptask i => lookupLv levels i
  | .pvalues _ => 0

/-- `isinstance(parent, Values) or parent in defined_tasks`. -/
def parentPlaced (st : SortState) : SParent → Bool
  | .pvalues _ => true
  | .ptask i => i ∈ st.defined

/-- `parent.is_scattered()` — the producing task's `scattered` flag, read
from the task list (a `Values` parent has no such method in the source;
modelled as `false`, unreached by the claims' inputs). -/
def parentScattered (tasks : List STask) : SParent → Bool
  | .pvalues _ => false
  | .ptask i =>
    ((List.find? (fun t => t.id == i) tasks).map (fun t => t.scattered)).getD false

/-- `contents.index(parent)` for a producer reference (a `Values` parent is
never an element of `contents`). -/
def parentIndex (contents : List SItem) : SParent → Nat
  | .ptask i => indexOfItem contents (.stask i)
  | .pvalues _ => contents.length

/-- `max(parents, key=lambda x: x.lv)` — Python `max` keeps the first
maximum. -/
def maxByLv (levels : List (Nat × Int)) (p0 : SParent) (ps : List SParent) :
    SParent :=
  ps.foldl (fun acc p => if parentLv levels p > parentLv levels acc then p else acc) p0

/-- `task.name` for a task id in the task list. -/
def taskName (tasks : List STask) (id : Nat) : String :=
  ((List.find? (fun t => t.id == id) tasks).map (fun t => t.sname)).getD ""

/-- `ValueError("Input sources has different level")`. -/
inductive SortErr where
  | inconsistentFanInLevel
deriving DecidableEq, Repr

/-- The `while children:` loop of the branching step: pop a child (set pop,
modelled as taking the deduplicated children in order), mark it defined, set
`child.lv = task.lv + 1`, and insert the `if`/`else if` line, the child and
the closing brace after index `idx`. -/
def branchLoop (tasks : List STask) (t : STask) :
    SortState → Nat → Bool → List Nat → SortState
  | st, _, _, [] => st
  | st, idx, first, c :: cs =>
    let tlv := lookupLv st.levels t.id
    let st' : SortState :=
      { defined := insertDefined c st.defined
        levels := setLv st.levels c (tlv + 1)
        contents :=
          pyInsert (idx + 3) (.closeLine tlv)
            (pyInsert (idx + 2) (.stask c)
              (pyInsert (idx + 1)
                (.ifLine tlv first t.sname t.condIdx (taskName tasks c))
                st.contents)) }
    branchLoop tasks t st' (idx + 3) false cs

/-- The `if task.branching:` step after a placement: collect the distinct
children of all output dependency values and chain them as `if` /
`else if` alternatives directly after the task. -/
def branchStep (tasks : List STask) (st : SortState) (t : STask) : SortState :=
  let idx := indexOfItem st.contents (.stask t.id)
  let children := pyDedup ((t.outputs.flatten).map (fun d => d.child))
  branchLoop tasks t st idx true children

/-- One `for task in tasks:` body of `sort_tasks`: skip the task unless every
producer is a `Values` or already defined, and unless it is not yet defined;
otherwise mark it defined and place it by the five cases of the source, then
run the branching step. -/
def placeTask (tasks : List STask) (st : SortState) (t : STask) :
    Except SortErr SortState :=
  let deps := t.inputs.flatten
  let parents := pyDedup (deps.map (fun d => d.parent))
  if ¬ parents.all (parentPlaced st) then .ok st
  else if t.id ∈ st.defined then .ok st
  else
    let st1 : SortState := { st with defined := insertDefined t.id st.defined }
    let placed : Except SortErr SortState :=
      match parents with
      | [] =>
        .ok { st1 with
          levels := setLv st1.levels t.id 1
          contents := pyInsert 0 (.stask t.id) st1.contents }
      | p0 :: _ =>
        if t.inputs.all (fun inp => inp.length > 1) then
          if ¬ parents.all
              (fun p => parentLv st1.levels p = parentLv st1.levels p0) then
            .error .inconsistentFanInLevel
          else
            let lv := parentLv st1.levels p0 - 1
            let maxIdx :=
              (parents.map (parentIndex st1.contents)).foldl max 0
            .ok { st1 with
              levels := setLv st1.levels t.id lv
              contents := pyInsert (maxIdx + 2) (.stask t.id) st1.contents }
        else if t.scattered then
          match deps.find?
              (fun d => ¬ parentScattered tasks d.parent && d.scattered) with
          | some d =>
            let lv := parentLv st1.levels d.parent + 1
            let idx := parentIndex st1.contents d.parent
            .ok { st1 with
              levels := setLv st1.levels t.id lv
              contents :=
                pyInsert (idx + 2) (.stask t.id)
                  (pyInsert (idx + 1) .scatterMarker st1.contents) }
          | none =>
            let mp := maxByLv st1.levels p0 parents.tail
            let idx := parentIndex st1.contents mp
            .ok { st1 with
              contents := pyInsert idx (.stask t.id) st1.contents }
        else
          match deps.find?
              (fun d => parentScattered tasks d.parent && d.wrapped) with
          | some d =>
            let lv := parentLv st1.levels d.parent - 1
            let idx := parentIndex st1.contents d.parent
            .ok { st1 with
              levels := setLv st1.levels t.id lv
              contents := pyInsert (idx + 1) (.stask t.id) st1.contents }
          | none =>
            let lv := parentLv st1.levels p0
            let maxIdx :=
              (parents.map
                (fun p =>
                  match p with
                  | .pvalues _ => 0
                  | .ptask i => indexOfItem st1.contents (.stask i))).foldl max 0
            .ok { st1 with
              levels := setLv st1.levels t.id lv
              contents := pyInsert maxIdx (.stask t.id) st1.contents }
    match placed with
    | .error e => .error e
    | .ok st2 => .ok (if t.branching then branchStep tasks st2 t else st2)

/-- One full `for task in tasks:` pass. -/
def sortPass (tasks : List STask) : List STask → SortState →
    Except SortErr SortState
  | [], st => .ok st
  | t :: ts, st =>
    match placeTask tasks st t with
    | .error e => .error e
    | .ok st' => sortPass tasks ts st'

/-- The `while len(defined_tasks) < len(tasks):` loop, with explicit fuel:
the source has no progress check, so a pass that places nothing repeats
forever; `none` means the fuel ran out with the loop still spinning. -/
def sortStatesFuel (tasks : List STask) : Nat → SortState →
    Option (Except SortErr SortState)
  | 0, _ => none
  | fuel + 1, st =>
    if tasks.length ≤ st.defined.length then some (.ok st)
    else
      match sortPass tasks tasks st with
      | .error e => some (.error e)
      | .ok st' => sortStatesFuel tasks fuel st'

/-- The state at the start of `sort_tasks`. -/
def initSortState : SortState := ⟨[], [], []⟩

/-- `sort_tasks(tasks)`: run the loop from the empty state and return the
`contents` list. -/
def sortTasks (tasks : List STask) (fuel : Nat) :
    Option (Except SortErr (List SItem)) :=
  (sortStatesFuel tasks fuel initSortState).map (Except.map (fun st => st.contents))

/-- `sort_tasks` never terminates on this task set: every amount of fuel is
exhausted with tasks still unplaced and no error raised. -/
def sortDiverges (tasks : List STask) : Prop :=
  ∀ fuel, sortStatesFuel tasks fuel initSortState = none

/-! ### Concrete instances used by the claims -/

/-- The dependency edge `A → B` of the plain chain. -/
def depAB : SDep := ⟨.ptask 0, 1, false, false⟩

/-- The dependency edge `B → C` of the plain chain. -/
def depBC : SDep := ⟨.ptask 1, 2, false, false⟩

/-- The plain chain `A forward B forward C`: no scatter, no branch, each
consumer fed by its single producer in order. -/
def chainTasks : List STask :=
  [⟨0, "A", [], [[depAB]], false, false, 0⟩,
   ⟨1, "B", [[depAB]], [[depBC]], false, false, 0⟩,
   ⟨2, "C", [[depBC]], [], false, false, 0⟩]

/-- A task set with a dangling dependency: the only task consumes a value
produced by task `1`, which is not part of the set, so no pass can ever
place it. -/
def danglingTasks : List STask :=
  [⟨0, "X", [[⟨.ptask 1, 0, false, false⟩]], [], false, false, 0⟩]

/-- Two plain task components (ids 0 and 1), neither scattered. -/
def demoHeap : Heap :=
  [(0, ⟨true, false, false, []⟩), (1, ⟨true, false, false, []⟩)]

/-- Two task components where component 0 is already scattered. -/
def scatteredHeap : Heap :=
  [(0, ⟨true, false, true, []⟩), (1, ⟨true, false, false, []⟩)]

/-! ## Helper lemmas -/

theorem callLoop_eq (tname : String) :
    ∀ (args : List WValue) (tys : List PyClass) (i : Nat),
    callLoop tname i args tys =
      match firstFailure args tys with
      | none => (addEdges tname i (min args.length tys.length) args, none)
      | some (k, e) => (addEdges tname i k args, some e)
  | [], tys, i => by cases tys <;> simp [callLoop, firstFailure, addEdges]
  | a :: as, [], i => by simp [callLoop, firstFailure, addEdges]
  | a :: as, ty :: tys, i => by
    rcases hchk : isInstance a.cls ty with e | b
    · simp [callLoop, firstFailure, hchk, addEdges]
    · cases b
      · simp [callLoop, firstFailure, hchk, addEdges]
      · simp only [callLoop, firstFailure, hchk]
        rw [callLoop_eq tname as tys (i + 1)]
        cases hfm : firstFailure as tys <;>
          simp [hfm, addEdges, List.length_cons, Nat.succ_min_succ]

theorem taskInit_ok_fields (n : String) (its ots : List PyClass) (br : Bool)
    (t : PyTask) (h : taskInit n its ots br = .ok t) :
    t.outputs = setting_output_values ots ∧ t.branch = br := by
  unfold taskInit at h
  split at h
  · split at h
    · cases h
    · cases h
      exact ⟨rfl, rfl⟩
  · cases h
    exact ⟨rfl, rfl⟩

theorem length_filter_setting (ots : List PyClass) :
    ((setting_output_values ots).filter (fun o => o.cls ≠ .condition)).length =
      ots.length - ots.countP (fun c => c == .condition) := by
  induction ots with
  | nil => rfl
  | cons c cs ih =>
    have hle := List.countP_le_length (p := fun c => c == .condition) (l := cs)
    by_cases hc : c = .condition
    · subst hc
      simp only [setting_output_values, List.map_cons, List.filter_cons,
        List.countP_cons, List.length_cons] at ih ⊢
      simp only [ne_eq, not_true_eq_false, decide_False, Bool.false_eq_true,
        if_false, beq_self_eq_true, if_true] at ih ⊢
      omega
    · simp only [setting_output_values, List.map_cons, List.filter_cons,
        List.countP_cons, List.length_cons] at ih ⊢
      have hb : (c == PyClass.condition) = false := by simp [hc]
      simp only [ne_eq, hc, not_false_eq_true, decide_True, if_true, hb,
        Bool.false_eq_true, if_false, List.length_cons] at ih ⊢
      omega

theorem mem_insertAll (c : Nat) :
    ∀ (cs s : List Nat), c ∈ insertAll s cs ↔ c ∈ s ∨ c ∈ cs
  | [], s => by simp [insertAll]
  | c' :: cs', s => by
    rw [insertAll, mem_insertAll c cs']
    by_cases h : c' ∈ s
    · simp only [h, if_true, List.mem_cons]
      constructor
      · rintro (hs | hc) <;> tauto
      · rintro (hs | rfl | hc) <;> try tauto
    · simp only [h, if_false, List.mem_append, List.mem_singleton, List.mem_cons]
      tauto

theorem addWorkflow_manager (m : Manager) (h : Heap) (w : PyWorkflow) :
    (addWorkflow m h w).1 = ⟨insertAll m.components w.operands⟩ := by
  rw [addWorkflow]
  cases w.operands <;> rfl

theorem isScattered_useScatter (h : Heap) (x c : Nat)
    (hc : isScattered h c = true) : isScattered (useScatter h x) c = true := by
  induction h with
  | nil => exact hc
  | cons p t ih =>
    obtain ⟨k, comp⟩ := p
    by_cases hx : k == x <;> by_cases hkc : k == c <;>
      simp [isScattered, useScatter, hx, hkc] at hc ⊢ <;>
      first | rfl | exact hc | exact ih hc

theorem isScattered_applyOperator (h : Heap) (base other : Nat) (op : String)
    (c : Nat) (hc : isScattered h c = true) :
    isScattered (applyOperator h base other op).1 c = true := by
  dsimp only [applyOperator]
  split_ifs <;>
    first
      | exact hc
      | exact isScattered_useScatter _ _ _ hc

theorem isScattered_addWorkflowLoop (c : Nat) :
    ∀ (pairs : List (Nat × String)) (h : Heap) (base : Nat),
    isScattered h c = true →
    isScattered (addWorkflowLoop h base pairs).1 c = true
  | [], _, _, hc => hc
  | (other, op) :: rest, h, base, hc => by
    rw [addWorkflowLoop]
    rcases hap : applyOperator h base other op with ⟨h', e⟩
    have h1 := isScattered_applyOperator h base other op c hc
    rw [hap] at h1
    cases e with
    | none => exact isScattered_addWorkflowLoop c rest h' other h1
    | some e' => exact h1

theorem isScattered_addWorkflow (m : Manager) (h : Heap) (w : PyWorkflow)
    (c : Nat) (hc : isScattered h c = true) :
    isScattered (addWorkflow m h w).2.1 c = true := by
  rw [addWorkflow]
  cases w.operands with
  | nil => exact hc
  | cons base rest => exact isScattered_addWorkflowLoop c (rest.zip w.operators) h base hc

theorem isScattered_runSysOp (h : Heap) (op : SysOp) (c : Nat)
    (hc : isScattered h c = true) : isScattered (runSysOp h op) c = true := by
  cases op with
  | useScatter x => exact isScattered_useScatter h x c hc
  | algebra e => exact hc
  | addWorkflow m w => exact isScattered_addWorkflow m h w c hc

theorem stallAux (tasks : List STask) (st : SortState)
    (hfix : sortPass tasks tasks st = .ok st)
    (hlt : st.defined.length < tasks.length) :
    ∀ fuel, sortStatesFuel tasks fuel st = none
  | 0 => rfl
  | fuel + 1 => by
    rw [sortStatesFuel, if_neg (by omega), hfix]
    exact stallAux tasks st hfix hlt fuel

/-! ## Claim theorems -/

/-- C1: the claim says `add_workflow` recognizes the five algebra operator
tokens and applies their connection rules, with only tokens outside the five
failing as unsupported.  The code refutes it: the algebra of `workflow.py`
records the tokens `"forward"`, `"branch"`, `"join"`, `"scatter"`,
`"gather"`, while `add_workflow` dispatches on `"|"`, `"<"`, `"<<"`, `">>"`,
so every one of the five algebra operators falls through to
`ValueError("Unsupported operator")` and no connection rule is ever
applied. -/
theorem addWorkflow_rejects_every_algebra_token (op : AlgOp) :
    (addWorkflow ⟨[]⟩ demoHeap
        (buildWorkflow (.comp (.leaf 0) op (.leaf 1)))).2.2 =
      some .unsupportedOperator := by
  cases op <;> rfl

/-- C2: the claim says `sort_tasks` on the plain chain `A forward B forward
C` outputs `[A, B, C]` with every consumer after its producer and all levels
1.  The code gives all levels 1 but the reversed order `[C, B, A]`: the
single-parent placement case runs `contents.insert(max_idx, task)`, which
inserts the consumer *before* its producer. -/
theorem sortTasks_chain_reversed :
    sortTasks chainTasks 4 = some (.ok [.stask 2, .stask 1, .stask 0]) ∧
    sortStatesFuel chainTasks 4 initSortState =
      some (.ok ⟨[0, 1, 2], [.stask 2, .stask 1, .stask 0],
        [(2, 1), (1, 1), (0, 1)]⟩) ∧
    [SItem.stask 2, SItem.stask 1, SItem.stask 0] ≠
      [SItem.stask 0, SItem.stask 1, SItem.stask 2] :=
  ⟨rfl, rfl, by decide⟩

/-- C3 (amended): `Task.__call__` with mismatched arity fails before
recording any edge.  With matching arity it records one consumer edge per
slot when every declared input type is a plain class and every argument
passes `isinstance`; at the first failing slot `k` it raises `TypeError` —
raised by `isinstance` itself when the declared type is a subscripted
`Array[T]` (so a declared array input never matches, whatever the value),
or by the explicit `raise` on a non-matching value — keeping the edges
already recorded on slots `0..k-1`: the matching prefix's edges are not
rolled back. -/
theorem taskCall_spec (t : PyTask) (args : List WValue) :
    taskCall t args =
      if args.length ≠ t.input_types.length then (args, some .arityError)
      else
        match firstFailure args t.input_types with
        | none => (addEdges t.name 0 args.length args, none)
        | some (k, e) => (addEdges t.name 0 k args, some e) := by
  rw [taskCall]
  split_ifs with h
  · rfl
  · rw [callLoop_eq]
    have hm : min args.length t.input_types.length = args.length := by
      push_neg at h
      omega
    rw [hm]

/-- C3 counterexample: a task declaring `(Int, String)` called with two
`Int` values fails with `TypeError`, yet the first argument keeps its newly
recorded consumer edge — the claim's «no consumer edges at all» is false.
And a task declaring a single `Array[String]` input called with a matching
`Array[String]` value also fails (Python's `isinstance` raises on the
subscripted generic), refuting «invoking it with N values of matching types
succeeds». -/
theorem taskCall_partial_edge_remains :
    (taskInit "consumer" [.int, .string] [] false).map
        (fun t => taskCall t [⟨.int, []⟩, ⟨.int, []⟩]) =
      .ok ([⟨.int, [⟨"consumer", 0⟩]⟩, ⟨.int, []⟩], some .typeMismatch) ∧
    (taskInit "gathered" [.array .string] [] false).map
        (fun t => taskCall t [⟨.array .string, []⟩]) =
      .ok ([⟨.array .string, []⟩], some .subscriptedGeneric) :=
  ⟨rfl, rfl⟩

/-- C4 (amended): with the `branch` flag set, `get_outputs()` returns the
non-Condition outputs in declared order (declared count minus the number of
Condition outputs); with the flag unset it returns all outputs — a declared
Condition output then stays among the forwarded outputs. -/
theorem getOutputs_spec (n : String) (its ots : List PyClass) (br : Bool)
    (t : PyTask) (h : taskInit n its ots br = .ok t) :
    getOutputs t =
      (if br then (setting_output_values ots).filter (fun o => o.cls ≠ .condition)
       else setting_output_values ots) ∧
    (getOutputs t).length =
      (if br then ots.length - ots.countP (fun c => c == .condition)
       else ots.length) := by
  obtain ⟨ho, hb⟩ := taskInit_ok_fields n its ots br t h
  constructor
  · rw [getOutputs, ho, hb]
  · rw [getOutputs, ho, hb]
    cases br
    · simp [setting_output_values]
    · simpa using length_filter_setting ots

/-- C4 witness: a branch-flagged task with outputs `(Int, Condition)`
forwards exactly the `Int` output. -/
theorem getOutputs_spec_witness :
    getOutputs ⟨"b", [], [.int, .condition], true,
        [⟨.int, []⟩, ⟨.condition, []⟩], some 1⟩ =
      (if true then
        (setting_output_values [.int, .condition]).filter
          (fun o => o.cls ≠ .condition)
       else setting_output_values [.int, .condition]) ∧
    (getOutputs ⟨"b", [], [.int, .condition], true,
        [⟨.int, []⟩, ⟨.condition, []⟩], some 1⟩).length =
      (if true then
        ([PyClass.int, .condition] : List PyClass).length -
          ([PyClass.int, .condition] : List PyClass).countP
            (fun c => c == .condition)
       else ([PyClass.int, .condition] : List PyClass).length) :=
  getOutputs_spec "b" [] [.int, .condition] true _ rfl

/-- C4 counterexample: a task constructed without the `branch` flag but
declaring a `Condition` output returns both outputs from `get_outputs()` —
length 2, not declared-count-minus-one, with the Condition among them. -/
theorem getOutputs_nonbranch_keeps_condition :
    (taskInit "p" [] [.int, .condition] false).map
        (fun t => ((getOutputs t).length,
          (getOutputs t).any (fun o => o.cls == .condition))) =
      .ok (2, true) := rfl

/-- C5 (amended): `Task.__init__` fails exactly when the `branch` flag is
passed and no `Condition` appears among the declared output types; the
number of Condition outputs is otherwise unchecked, and branch-capability
is the explicit flag, not inferred from the output list. -/
theorem taskInit_error_iff (n : String) (its ots : List PyClass) (br : Bool) :
    (∃ e, taskInit n its ots br = .error e) ↔
      br = true ∧ ots.contains .condition = false := by
  cases br
  · simp [taskInit]
  · by_cases hc : PyClass.condition ∈ ots <;> simp [taskInit, hc]

/-- C5 counterexample: two `Condition` outputs with the `branch` flag are
accepted (no construction error, the first becomes `condition`), and a
single `Condition` output without the flag builds a non-branch task — both
contradict «branch-capable iff exactly one Condition output, two or more is
a construction-time error». -/
theorem taskInit_multiple_conditions_accepted :
    taskInit "t" [] [.condition, .condition] true =
      .ok ⟨"t", [], [.condition, .condition], true,
        [⟨.condition, []⟩, ⟨.condition, []⟩], some 0⟩ ∧
    taskInit "t2" [] [.condition] false =
      .ok ⟨"t2", [], [.condition], false, [⟨.condition, []⟩], none⟩ :=
  ⟨rfl, rfl⟩

/-- C6: the claim says the gather operator fails iff the base is not
scattered, and connects wrapped outputs when it is.  The code refutes it:
the algebra records the token `"gather"`, which `add_workflow` does not
recognize, so even with a scattered base the pipeline `A gather B` raises
`ValueError("Unsupported operator")` before the scatter precondition is ever
consulted, and no connection happens. -/
theorem addWorkflow_gather_scattered_still_unsupported :
    addWorkflow ⟨[]⟩ scatteredHeap
        (buildWorkflow (.comp (.leaf 0) .gather (.leaf 1))) =
      (⟨[0, 1]⟩, scatteredHeap, some .unsupportedOperator) := rfl

/-- C7 (amended): when a full pass of the leveling loop places nothing while
tasks remain, `sort_tasks` loops forever — it exhausts any amount of fuel
without placing the tasks and without raising any error; the source has no
`UnresolvableGraph` detection. -/
theorem sortTasks_stalled_pass_diverges (tasks : List STask) (st : SortState)
    (h1 : sortPass tasks tasks st = .ok st)
    (h2 : st.defined.length < tasks.length) (fuel : Nat) :
    sortStatesFuel tasks fuel st = none :=
  stallAux tasks st h1 h2 fuel

/-- C7 witness: on the dangling-dependency task set the loop is still
spinning after 9 iterations. -/
theorem sortTasks_stalled_pass_diverges_witness :
    sortStatesFuel danglingTasks 9 initSortState = none :=
  sortTasks_stalled_pass_diverges danglingTasks initSortState rfl (by decide) 9

/-- C7 counterexample: on a nonempty task set with a dangling dependency,
`sort_tasks` neither places every task nor fails — for every fuel the loop
is still running, refuting «terminates … or fails explicitly with
UnresolvableGraph». -/
theorem sortTasks_dangling_diverges :
    sortDiverges danglingTasks ∧ danglingTasks.length = 1 :=
  ⟨fun fuel => stallAux danglingTasks initSortState rfl (by decide) fuel, rfl⟩

/-- C8: building a pipeline expression flattens it to the operands in
left-to-right composition order with the operator tokens between them (one
fewer than operands), and touches no component or value state — the algebra
methods of `workflow.py` write only the two lists of the accumulated
`Workflow`. -/
theorem buildWorkflow_flattens (e : PipeExpr) :
    (buildWorkflow e).operands = e.components ∧
    (buildWorkflow e).operators = e.tokens ∧
    (buildWorkflow e).operators.length + 1 = (buildWorkflow e).operands.length ∧
    ∀ h : Heap, runSysOp h (.algebra e) = h := by
  induction e with
  | leaf c => exact ⟨rfl, rfl, rfl, fun _ => rfl⟩
  | comp l op r ihl ihr =>
    obtain ⟨hl1, hl2, hl3, -⟩ := ihl
    obtain ⟨hr1, hr2, hr3, -⟩ := ihr
    refine ⟨?_, ?_, ?_, fun _ => rfl⟩
    · simp [buildWorkflow, PyWorkflow.connect, PipeExpr.components, hl1, hr1]
    · simp [buildWorkflow, PyWorkflow.connect, PipeExpr.tokens, hl2, hr2]
    · simp only [buildWorkflow, PyWorkflow.connect, List.length_append,
        List.length_cons, List.length_nil] at hl3 hr3 ⊢
      omega

/-- C9: `add_workflow` updates the manager's component set with every
operand before the operator loop runs, so the membership of the resulting
set is exactly the old set plus the workflow's operands — also when an
operator application raises, since the update happened first and nothing is
rolled back. -/
theorem addWorkflow_registers_all_operands (m : Manager) (h : Heap)
    (w : PyWorkflow) (c : Nat) :
    c ∈ (addWorkflow m h w).1.components ↔ c ∈ m.components ∨ c ∈ w.operands := by
  rw [addWorkflow_manager]
  exact mem_insertAll c w.operands m.components

/-- C10: the `scattered` flag is monotone — `use_scatter` only sets it, the
algebra touches no component state, and every path through `add_workflow`
either leaves a flag alone or sets it, so a component once scattered stays
scattered across any operation sequence. -/
theorem scattered_flag_monotone (ops : List SysOp) (h : Heap) (c : Nat)
    (hc : isScattered h c = true) :
    isScattered (runSysOps h ops) c = true := by
  induction ops generalizing h with
  | nil => exact hc
  | cons op rest ih => exact ih _ (isScattered_runSysOp h op c hc)

/-- C10 witness: component 0, scattered at the start, is still scattered
after a `use_scatter`, an algebra composition and an `add_workflow`. -/
theorem scattered_flag_monotone_witness :
    isScattered
      (runSysOps scatteredHeap
        [.useScatter 1,
         .algebra (.comp (.leaf 0) .forward (.leaf 1)),
         .addWorkflow ⟨[]⟩ (buildWorkflow (.comp (.leaf 0) .scatter (.leaf 1)))])
      0 = true :=
  scattered_flag_monotone _ scatteredHeap 0 rfl

end Py2Wdl
